import Mathlib

/-!
Shallow embedding of the ReactiGIF core routes: the generation endpoint
(`POST /api/generate`) and the history endpoint (`GET /api/history`).

The generation handler is modelled as a pure function of an `Env` that fixes,
up front, the answer every external system would give on this request
(auth, rate limiter, request body, reasoning service, Giphy, database).
Alongside the response the model returns the ordered list of external calls
the handler issues (`Effect`), with each concurrent `Promise.all` batch
linearised in array-index order; claims about which calls happen before a
given rejection are read off this trace.
-/

namespace ReactiGIF

namespace Generate

/-- The three analytical perspectives of the strategies schema
(`z.enum(["emotional", "literal", "sarcastic"])`). -/
inductive Perspective where
  | emotional
  | literal
  | sarcastic
  deriving DecidableEq, Repr

/-- A Giphy search hit, reduced to the fields the route reads:
`title`, `alt_text`, and `images.original.url`. -/
structure Gif where
  title : String
  altText : String
  url : String
  deriving DecidableEq, Repr

/-- One search strategy, as produced by `generateObject` against
`strategiesSchema`. -/
structure Strategy where
  keywords : List String
  topic : Option String
  perspective : Perspective
  reasoning : String
  deriving DecidableEq, Repr

/-- What `strategiesSchema` imposes beyond typing: exactly 3 strategies, each
with 1 to 3 keywords. The schema does not constrain the order of the
perspectives in the array. -/
def SchemaValidStrategies (l : List Strategy) : Prop :=
  l.length = 3 ∧ ∀ s ∈ l, 1 ≤ s.keywords.length ∧ s.keywords.length ≤ 3

/-- Outcome of one Giphy fetch, as observed by the route. -/
inductive SearchOutcome where
  | fetchFailure
  | httpFailure
  | ok (gifs : List Gif)

/-- The per-branch search result object `\x7b strategy, gifs, error \x7d`. -/
structure SearchResult where
  strategy : Strategy
  gifs : List Gif
  error : Option String
  deriving DecidableEq, Repr

/-- The query string for one strategy: keywords joined by single spaces, with
the topic appended when it is present and non-empty (JS truthiness of
`strategy.topic`). -/
def searchQuery (s : Strategy) : String :=
  let reactionKeywords := String.intercalate " " s.keywords
  match s.topic with
  | none => reactionKeywords
  | some t => if t = "" then reactionKeywords else reactionKeywords ++ " " ++ t

/-- One branch of Step 5: a thrown fetch yields `error = "Network error"`,
a non-2xx response yields `error = "Search failed"`, both with an empty gif
list; a 2xx response yields `data.data || []` and no error. -/
def runSearch (s : Strategy) (o : SearchOutcome) : SearchResult :=
  match o with
  | .fetchFailure => { strategy := s, gifs := [], error := some "Network error" }
  | .httpFailure => { strategy := s, gifs := [], error := some "Search failed" }
  | .ok gifs => { strategy := s, gifs := gifs, error := none }

/-- The object returned by `generateObject` against `selectionSchema`. -/
structure SelectionObj where
  selectedIndex : Nat
  reasoning : String
  deriving DecidableEq, Repr

/-- Outcome of the per-branch selection call to the reasoning service. -/
inductive SelectOutcome where
  | fail
  | ok (sel : SelectionObj)

/-- The per-branch selection object `\x7b strategy, selectedGif, reasoning, error \x7d`. -/
structure Selected where
  strategy : Strategy
  selectedGif : Option Gif
  reasoning : String
  error : Bool
  deriving DecidableEq, Repr

/-- One branch of Step 6. Empty candidate list: no service call, a null gif
and `error: true`. Service call succeeds: the chosen gif is
`result.gifs[selection.selectedIndex] || result.gifs[0]` (first gif when the
index is out of range), with the returned reasoning and `error: false`.
Service call throws: first gif, a fixed reasoning string, `error: true`. -/
def runSelection (r : SearchResult) (o : SelectOutcome) : Selected :=
  match r.gifs with
  | [] =>
    { strategy := r.strategy, selectedGif := none,
      reasoning := r.error.getD "No GIFs found for this perspective", error := true }
  | g :: gs =>
    match o with
    | .fail =>
      { strategy := r.strategy, selectedGif := some g,
        reasoning := "AI selection failed, using top result", error := true }
    | .ok sel =>
      { strategy := r.strategy, selectedGif := some ((g :: gs).getD sel.selectedIndex g),
        reasoning := sel.reasoning, error := false }

/-- What `ratelimit.limit(userId)` returns. -/
structure RateLimitResult where
  success : Bool
  limit : Nat
  remaining : Nat
  reset : Nat
  deriving DecidableEq, Repr

/-- The `text` field of the parsed JSON body. The guard
`!text || typeof text !== "string"` rejects a missing field, any non-string,
and the empty string. -/
inductive TextVal where
  | notString
  | str (s : String)
  deriving DecidableEq, Repr

/-- A row of the user table, reduced to the primary key the route reads. -/
structure DbUser where
  id : String
  deriving DecidableEq, Repr

/-- A row written by `prisma.generation.create` in Step 7. -/
structure GenerationData where
  userId : String
  inputText : String
  keywords : List String
  topic : Option String
  reasoning : String
  gifUrl : String
  gifTitle : String
  perspective : Perspective
  generationGroupId : String
  deriving DecidableEq, Repr

/-- External calls issued by the route, in order of issue. -/
inductive Effect where
  | rateLimitCheck (userId : String)
  | userUpsert (userId : String)
  | strategyCall (text : String)
  | searchCall (query : String)
  | selectionCall (p : Perspective)
  | dbUserLookup (userId : String)
  | persistWrite (data : GenerationData)
  deriving DecidableEq, Repr

/-- One entry of the `results` array of a 200 response. -/
structure ResultItem where
  url : String
  keywords : List String
  topic : Option String
  reasoning : String
  title : String
  perspective : Perspective
  deriving DecidableEq, Repr

/-- The optional `rateLimit` object of a 200 response. -/
structure RateLimitInfo where
  remaining : Nat
  limit : Nat
  reset : Nat
  deriving DecidableEq, Repr

/-- The body of a 200 response. -/
structure SuccessBody where
  results : List ResultItem
  totalFound : Nat
  requestedPerspectives : Nat
  rateLimit : Option RateLimitInfo
  deriving DecidableEq, Repr

/-- The possible responses of the POST handler. `serverError` is the outer
catch-all 500 (`"Failed to generate GIF recommendation"`), reached by any
thrown rejection: a failed body parse, a failed strategy derivation, or a
failed persistence write. -/
inductive PostResponse where
  | quotaExceeded (limit reset : Nat)
  | invalidInput
  | giphyKeyMissing
  | notFound
  | ok (body : SuccessBody)
  | serverError
  deriving DecidableEq, Repr

/-- Everything external the POST handler consults, fixed up front: each field
is the answer the corresponding external system would give on this request.
`search` and `select` are indexed by the strategy (branch) position;
`persistOk` by the successful-selection position. -/
structure Env where
  userId : Option String
  rateLimit : RateLimitResult
  body : Except Unit TextVal
  strategies : Except Unit (List Strategy)
  giphyApiKey : Option String
  search : Nat → SearchOutcome
  select : Nat → SelectOutcome
  dbUser : Option DbUser
  persistOk : Nat → Bool
  now : Nat
  rand : String

/-- The group id generated in Step 7, built from the wall clock and a drawn
random suffix. -/
def freshGroupId (now : Nat) (rand : String) : String :=
  "group_" ++ toString now ++ "_" ++ rand

/-- Step 5: the three searches, in strategy order (`Promise.all` keeps the
position of every branch regardless of completion order). -/
def searchPhase (env : Env) (strats : List Strategy) : List SearchResult :=
  strats.enum.map fun p => runSearch p.2 (env.search p.1)

/-- Step 6: the selections, in branch order. -/
def selectionPhase (env : Env) (results : List SearchResult) : List Selected :=
  results.enum.map fun p => runSelection p.2 (env.select p.1)

/-- `selections.filter(s => s.selectedGif !== null)`. -/
def successfulSelections (sels : List Selected) : List Selected :=
  sels.filter fun s => s.selectedGif.isSome

/-- One entry of the `results` array, built from a selection that holds a gif. -/
def toResultItem (s : Selected) : Option ResultItem :=
  s.selectedGif.map fun g =>
    { url := g.url, keywords := s.strategy.keywords, topic := s.strategy.topic,
      reasoning := s.reasoning, title := g.title, perspective := s.strategy.perspective }

/-- The row handed to `prisma.generation.create` for one successful selection. -/
def toRecord (uid : String) (text : String) (gid : String) (s : Selected) :
    Option GenerationData :=
  s.selectedGif.map fun g =>
    { userId := uid, inputText := text, keywords := s.strategy.keywords,
      topic := s.strategy.topic, reasoning := s.reasoning, gifUrl := g.url,
      gifTitle := g.title, perspective := s.strategy.perspective,
      generationGroupId := gid }

/-- The `rateLimit` object is included exactly for identified callers and then
carries the limiter values of the gate decision. -/
def rlInfo (env : Env) : Option RateLimitInfo :=
  env.userId.map fun _ =>
    { remaining := env.rateLimit.remaining, limit := env.rateLimit.limit,
      reset := env.rateLimit.reset }

/-- The 200 body built from the successful selections. -/
def okBody (env : Env) (succ : List Selected) : SuccessBody :=
  { results := succ.filterMap toResultItem, totalFound := succ.length,
    requestedPerspectives := 3, rateLimit := rlInfo env }

/-- Step 7 and the response build. For an identified caller the user row is
looked up; when it exists, one fresh group id is drawn and one create is fired
per successful selection. The creates sit inside the outer try with no local
handler, so a single failed create rejects the joined promise and the whole
request ends in the catch-all 500. -/
def finishRequest (env : Env) (text : String) (succ : List Selected)
    (tr : List Effect) : PostResponse × List Effect :=
  match env.userId with
  | none => (.ok (okBody env succ), tr)
  | some uid =>
    let tr := tr ++ [Effect.dbUserLookup uid]
    match env.dbUser with
    | none => (.ok (okBody env succ), tr)
    | some du =>
      let gid := freshGroupId env.now env.rand
      let recs := succ.filterMap (toRecord du.id text gid)
      let tr := tr ++ recs.map Effect.persistWrite
      if (List.range succ.length).all env.persistOk then (.ok (okBody env succ), tr)
      else (.serverError, tr)

/-- The handler body from `request.json()` onward, given the trace accumulated
by the quota gate. -/
def POSTcore (env : Env) (tr : List Effect) : PostResponse × List Effect :=
  match env.body with
  | .error _ => (.serverError, tr)
  | .ok .notString => (.invalidInput, tr)
  | .ok (.str text) =>
    if text = "" then (.invalidInput, tr)
    else
      let tr := tr ++ [Effect.strategyCall text]
      match env.strategies with
      | .error _ => (.serverError, tr)
      | .ok strats =>
        match env.giphyApiKey with
        | none => (.giphyKeyMissing, tr)
        | some k =>
          if k = "" then (.giphyKeyMissing, tr)
          else
            let sres := searchPhase env strats
            let tr := tr ++ sres.map fun r => Effect.searchCall (searchQuery r.strategy)
            let sels := selectionPhase env sres
            let tr := tr ++ ((sres.filter fun r => !r.gifs.isEmpty).map
                fun r => Effect.selectionCall r.strategy.perspective)
            let succ := successfulSelections sels
            if succ.isEmpty then (.notFound, tr)
            else finishRequest env text succ tr

/-- The `POST /api/generate` handler. An anonymous caller skips the quota gate
and the upsert entirely; an identified caller is gated first and rejected with
the 429 body before any further work when the limiter refuses. -/
def POST (env : Env) : PostResponse × List Effect :=
  match env.userId with
  | none => POSTcore env []
  | some uid =>
    if env.rateLimit.success then
      POSTcore env [Effect.rateLimitCheck uid, Effect.userUpsert uid]
    else
      (.quotaExceeded env.rateLimit.limit env.rateLimit.reset,
        [Effect.rateLimitCheck uid])

/-! ### Derived notions used to state the claims -/

/-- No strategy-derivation call to the reasoning service appears in the trace. -/
def noStrategyCalls (tr : List Effect) : Prop := ∀ t, Effect.strategyCall t ∉ tr

/-- No Giphy search call appears in the trace. -/
def noSearchCalls (tr : List Effect) : Prop := ∀ q, Effect.searchCall q ∉ tr

/-- No selection call to the reasoning service appears in the trace. -/
def noSelectionCalls (tr : List Effect) : Prop := ∀ p, Effect.selectionCall p ∉ tr

/-- No record write appears in the trace. -/
def noPersist (tr : List Effect) : Prop := ∀ d, Effect.persistWrite d ∉ tr

/-- The group ids of all records written in the trace. -/
def persistedGroupIds (tr : List Effect) : List String :=
  tr.filterMap fun e => match e with
    | .persistWrite d => some d.generationGroupId
    | _ => none

/-- The selections of a request with the given derived strategies, in branch
(strategy-array) order. -/
def branchSelections (env : Env) (strats : List Strategy) : List Selected :=
  selectionPhase env (searchPhase env strats)

/-- The trace contributed between body validation and aggregation. -/
def preTrace (env : Env) (text : String) (strats : List Strategy) : List Effect :=
  [Effect.strategyCall text]
    ++ (searchPhase env strats).map (fun r => Effect.searchCall (searchQuery r.strategy))
    ++ ((searchPhase env strats).filter fun r => !r.gifs.isEmpty).map
        fun r => Effect.selectionCall r.strategy.perspective

/-! ### Structural lemmas -/

lemma runSearch_strategy (s : Strategy) (o : SearchOutcome) :
    (runSearch s o).strategy = s := by
  cases o <;> rfl

lemma runSelection_strategy (r : SearchResult) (o : SelectOutcome) :
    (runSelection r o).strategy = r.strategy := by
  rcases r with ⟨s, gifs, e⟩
  cases gifs <;> cases o <;> rfl

lemma searchPhase_map_strategy (env : Env) (strats : List Strategy) :
    (searchPhase env strats).map SearchResult.strategy = strats := by
  unfold searchPhase
  rw [List.map_map]
  have h : (SearchResult.strategy ∘ fun p : Nat × Strategy => runSearch p.2 (env.search p.1))
      = Prod.snd := by
    funext p; exact runSearch_strategy p.2 (env.search p.1)
  rw [h, List.enum_map_snd]

lemma selectionPhase_map_strategy (env : Env) (sres : List SearchResult) :
    (selectionPhase env sres).map Selected.strategy = sres.map SearchResult.strategy := by
  unfold selectionPhase
  rw [List.map_map]
  have h : (Selected.strategy ∘ fun p : Nat × SearchResult => runSelection p.2 (env.select p.1))
      = (SearchResult.strategy ∘ Prod.snd) := by
    funext p; exact runSelection_strategy p.2 (env.select p.1)
  rw [h, ← List.map_map, List.enum_map_snd]

lemma branchSelections_map_strategy (env : Env) (strats : List Strategy) :
    (branchSelections env strats).map Selected.strategy = strats := by
  unfold branchSelections
  rw [selectionPhase_map_strategy, searchPhase_map_strategy]

lemma mem_successfulSelections {sels : List Selected} {s : Selected}
    (h : s ∈ successfulSelections sels) : s.selectedGif.isSome := by
  unfold successfulSelections at h
  exact (List.mem_filter.mp h).2

lemma filterMap_toResultItem_map_perspective (l : List Selected)
    (h : ∀ s ∈ l, s.selectedGif.isSome) :
    (l.filterMap toResultItem).map ResultItem.perspective
      = l.map fun s => s.strategy.perspective := by
  induction l with
  | nil => rfl
  | cons s rest ih =>
    have hs := h s (List.mem_cons_self ..)
    obtain ⟨g, hg⟩ := Option.isSome_iff_exists.mp hs
    simp [List.filterMap_cons, toResultItem, hg,
      ih fun x hx => h x (List.mem_cons_of_mem _ hx)]

lemma filterMap_toResultItem_length (l : List Selected)
    (h : ∀ s ∈ l, s.selectedGif.isSome) :
    (l.filterMap toResultItem).length = l.length := by
  induction l with
  | nil => rfl
  | cons s rest ih =>
    have hs := h s (List.mem_cons_self ..)
    obtain ⟨g, hg⟩ := Option.isSome_iff_exists.mp hs
    simp [List.filterMap_cons, toResultItem, hg,
      ih fun x hx => h x (List.mem_cons_of_mem _ hx)]

/-! ### Equation lemmas for the control flow of the handler -/

lemma POST_userId_none (env : Env) (hu : env.userId = none) :
    POST env = POSTcore env [] := by
  unfold POST; rw [hu]

lemma POST_gate_passed (env : Env) (uid : String) (hu : env.userId = some uid)
    (hrl : env.rateLimit.success = true) :
    POST env = POSTcore env [Effect.rateLimitCheck uid, Effect.userUpsert uid] := by
  unfold POST; rw [hu, hrl]; simp

lemma POST_quota_reject (env : Env) (uid : String) (hu : env.userId = some uid)
    (hrl : env.rateLimit.success = false) :
    POST env = (.quotaExceeded env.rateLimit.limit env.rateLimit.reset,
      [Effect.rateLimitCheck uid]) := by
  unfold POST; rw [hu, hrl]; simp

lemma POSTcore_parse_error (env : Env) (tr : List Effect) (e : Unit)
    (hb : env.body = .error e) :
    POSTcore env tr = (.serverError, tr) := by
  unfold POSTcore; rw [hb]

lemma POSTcore_invalid_notString (env : Env) (tr : List Effect)
    (hb : env.body = .ok .notString) :
    POSTcore env tr = (.invalidInput, tr) := by
  unfold POSTcore; rw [hb]

lemma POSTcore_invalid_empty (env : Env) (tr : List Effect)
    (hb : env.body = .ok (.str "")) :
    POSTcore env tr = (.invalidInput, tr) := by
  unfold POSTcore; rw [hb]; simp

lemma POSTcore_strats_error (env : Env) (tr : List Effect) (text : String) (e : Unit)
    (hb : env.body = .ok (.str text)) (ht : text ≠ "") (hsE : env.strategies = .error e) :
    POSTcore env tr = (.serverError, tr ++ [Effect.strategyCall text]) := by
  unfold POSTcore; rw [hb]; simp only [if_neg ht]; rw [hsE]

lemma POSTcore_key_none (env : Env) (tr : List Effect) (text : String)
    (strats : List Strategy) (hb : env.body = .ok (.str text)) (ht : text ≠ "")
    (hs : env.strategies = .ok strats) (hk : env.giphyApiKey = none) :
    POSTcore env tr = (.giphyKeyMissing, tr ++ [Effect.strategyCall text]) := by
  unfold POSTcore; rw [hb]; simp only [if_neg ht]; rw [hs, hk]

lemma POSTcore_key_empty (env : Env) (tr : List Effect) (text : String)
    (strats : List Strategy) (hb : env.body = .ok (.str text)) (ht : text ≠ "")
    (hs : env.strategies = .ok strats) (hk : env.giphyApiKey = some "") :
    POSTcore env tr = (.giphyKeyMissing, tr ++ [Effect.strategyCall text]) := by
  unfold POSTcore; rw [hb]; simp only [if_neg ht]; rw [hs, hk]; simp

lemma POSTcore_reach (env : Env) (tr : List Effect) (text : String)
    (strats : List Strategy) (key : String)
    (hb : env.body = .ok (.str text)) (ht : text ≠ "")
    (hs : env.strategies = .ok strats) (hk : env.giphyApiKey = some key)
    (hke : key ≠ "") :
    POSTcore env tr =
      (if (successfulSelections (branchSelections env strats)).isEmpty
        then ((.notFound : PostResponse), tr ++ preTrace env text strats)
        else finishRequest env text (successfulSelections (branchSelections env strats))
          (tr ++ preTrace env text strats)) := by
  unfold POSTcore
  rw [hb]
  simp only [if_neg ht]
  rw [hs, hk]
  simp only [if_neg hke]
  simp [preTrace, branchSelections, List.append_assoc]

lemma finishRequest_fst (env : Env) (text : String) (succ : List Selected)
    (tr : List Effect) :
    (finishRequest env text succ tr).1 = .ok (okBody env succ) ∨
    (finishRequest env text succ tr).1 = .serverError := by
  unfold finishRequest
  cases hu : env.userId with
  | none => exact .inl rfl
  | some uid =>
    cases hd : env.dbUser with
    | none => exact .inl rfl
    | some du =>
      by_cases hp : (List.range succ.length).all env.persistOk
      · exact .inl (by simp [hp])
      · exact .inr (by simp [hp])

lemma finishRequest_ok_body (env : Env) (text : String) (succ : List Selected)
    (tr : List Effect) (body : SuccessBody)
    (hok : (finishRequest env text succ tr).1 = .ok body) :
    body = okBody env succ := by
  rcases finishRequest_fst env text succ tr with h | h
  · rw [h] at hok; injection hok with h2; exact h2.symm
  · rw [h] at hok; exact absurd hok (by simp)

lemma POSTcore_ok_inversion (env : Env) (tr : List Effect) (body : SuccessBody)
    (strats : List Strategy) (hs : env.strategies = .ok strats)
    (hok : (POSTcore env tr).1 = .ok body) :
    body = okBody env (successfulSelections (branchSelections env strats)) ∧
    (successfulSelections (branchSelections env strats)).isEmpty = false := by
  cases hb : env.body with
  | error e => rw [POSTcore_parse_error env tr e hb] at hok; exact absurd hok (by simp)
  | ok tv =>
    cases tv with
    | notString =>
      rw [POSTcore_invalid_notString env tr hb] at hok; exact absurd hok (by simp)
    | str text =>
      by_cases ht : text = ""
      · subst ht
        rw [POSTcore_invalid_empty env tr hb] at hok; exact absurd hok (by simp)
      · cases hk : env.giphyApiKey with
        | none =>
          rw [POSTcore_key_none env tr text strats hb ht hs hk] at hok
          exact absurd hok (by simp)
        | some key =>
          by_cases hke : key = ""
          · subst hke
            rw [POSTcore_key_empty env tr text strats hb ht hs hk] at hok
            exact absurd hok (by simp)
          · rw [POSTcore_reach env tr text strats key hb ht hs hk hke] at hok
            by_cases hempty : (successfulSelections (branchSelections env strats)).isEmpty
            · rw [if_pos hempty] at hok; exact absurd hok (by simp)
            · rw [if_neg hempty] at hok
              exact ⟨finishRequest_ok_body env text _ _ body hok,
                Bool.not_eq_true _ ▸ hempty⟩

lemma POST_ok_inversion (env : Env) (body : SuccessBody) (strats : List Strategy)
    (hs : env.strategies = .ok strats) (hok : (POST env).1 = .ok body) :
    body = okBody env (successfulSelections (branchSelections env strats)) ∧
    (successfulSelections (branchSelections env strats)).isEmpty = false := by
  cases hu : env.userId with
  | none =>
    rw [POST_userId_none env hu] at hok
    exact POSTcore_ok_inversion env [] body strats hs hok
  | some uid =>
    cases hrl : env.rateLimit.success with
    | false => rw [POST_quota_reject env uid hu hrl] at hok; exact absurd hok (by simp)
    | true =>
      rw [POST_gate_passed env uid hu hrl] at hok
      exact POSTcore_ok_inversion env _ body strats hs hok

/-! ### Group ids appearing in the write trace -/

lemma persistedGroupIds_append (a b : List Effect) :
    persistedGroupIds (a ++ b) = persistedGroupIds a ++ persistedGroupIds b := by
  simp [persistedGroupIds]

lemma persistedGroupIds_map_persistWrite (recs : List GenerationData) :
    persistedGroupIds (recs.map Effect.persistWrite)
      = recs.map GenerationData.generationGroupId := by
  induction recs with
  | nil => rfl
  | cons d rest ih => simp [persistedGroupIds, List.filterMap_cons] at ih ⊢; exact ih

lemma persistedGroupIds_map_searchCall (l : List SearchResult) :
    persistedGroupIds (l.map fun r => Effect.searchCall (searchQuery r.strategy)) = [] := by
  induction l with
  | nil => rfl
  | cons r rest ih => simp only [persistedGroupIds, List.map_cons, List.filterMap_cons]; exact ih

lemma persistedGroupIds_map_selectionCall (l : List SearchResult) :
    persistedGroupIds (l.map fun r => Effect.selectionCall r.strategy.perspective) = [] := by
  induction l with
  | nil => rfl
  | cons r rest ih => simp only [persistedGroupIds, List.map_cons, List.filterMap_cons]; exact ih

lemma persistedGroupIds_preTrace (env : Env) (text : String) (strats : List Strategy) :
    persistedGroupIds (preTrace env text strats) = [] := by
  unfold preTrace
  rw [persistedGroupIds_append, persistedGroupIds_append,
    persistedGroupIds_map_searchCall, persistedGroupIds_map_selectionCall]
  rfl

lemma toRecord_groupId (uid text gid : String) (s : Selected) (d : GenerationData)
    (h : toRecord uid text gid s = some d) : d.generationGroupId = gid := by
  unfold toRecord at h
  cases hg : s.selectedGif with
  | none => rw [hg] at h; exact absurd h (by simp)
  | some g => rw [hg] at h; simp at h; rw [← h]

lemma persistedGroupIds_finishRequest (env : Env) (text : String)
    (succ : List Selected) (tr : List Effect) :
    ∀ s ∈ persistedGroupIds (finishRequest env text succ tr).2,
      s ∈ persistedGroupIds tr ∨ s = freshGroupId env.now env.rand := by
  unfold finishRequest
  cases hu : env.userId with
  | none => intro s hs; exact .inl hs
  | some uid =>
    cases hd : env.dbUser with
    | none =>
      intro s hs
      simp only [persistedGroupIds_append] at hs
      rcases List.mem_append.mp hs with h | h
      · exact .inl h
      · exact absurd h (by simp [persistedGroupIds])
    | some du =>
      have htrace : ∀ s, s ∈ persistedGroupIds ((tr ++ [Effect.dbUserLookup uid]) ++
          (succ.filterMap (toRecord du.id text (freshGroupId env.now env.rand))).map
            Effect.persistWrite) →
          s ∈ persistedGroupIds tr ∨ s = freshGroupId env.now env.rand := by
        intro s hmem
        simp only [persistedGroupIds_append, persistedGroupIds_map_persistWrite,
          List.mem_append] at hmem
        rcases hmem with (h | h) | h
        · exact .inl h
        · exact absurd h (by simp [persistedGroupIds])
        · right
          rcases List.mem_map.mp h with ⟨d, hd2, hgid⟩
          rcases List.mem_filterMap.mp hd2 with ⟨sel, _, hrec⟩
          rw [← hgid]
          exact toRecord_groupId _ _ _ sel d hrec
      dsimp only
      by_cases hp : (List.range succ.length).all env.persistOk
      · rw [if_pos hp]
        exact htrace
      · rw [if_neg hp]
        exact htrace

lemma persistedGroupIds_POSTcore (env : Env) (tr : List Effect) :
    ∀ s ∈ persistedGroupIds (POSTcore env tr).2,
      s ∈ persistedGroupIds tr ∨ s = freshGroupId env.now env.rand := by
  cases hb : env.body with
  | error e => rw [POSTcore_parse_error env tr e hb]; intro s hs; exact .inl hs
  | ok tv =>
    cases tv with
    | notString => rw [POSTcore_invalid_notString env tr hb]; intro s hs; exact .inl hs
    | str text =>
      by_cases ht : text = ""
      · subst ht
        rw [POSTcore_invalid_empty env tr hb]; intro s hs; exact .inl hs
      · cases hsE : env.strategies with
        | error e =>
          rw [POSTcore_strats_error env tr text e hb ht hsE]
          intro s hs
          simp only [persistedGroupIds_append, List.mem_append] at hs
          rcases hs with h | h
          · exact .inl h
          · exact absurd h (by simp [persistedGroupIds])
        | ok strats =>
          cases hk : env.giphyApiKey with
          | none =>
            rw [POSTcore_key_none env tr text strats hb ht hsE hk]
            intro s hs
            simp only [persistedGroupIds_append, List.mem_append] at hs
            rcases hs with h | h
            · exact .inl h
            · exact absurd h (by simp [persistedGroupIds])
          | some key =>
            by_cases hke : key = ""
            · subst hke
              rw [POSTcore_key_empty env tr text strats hb ht hsE hk]
              intro s hs
              simp only [persistedGroupIds_append, List.mem_append] at hs
              rcases hs with h | h
              · exact .inl h
              · exact absurd h (by simp [persistedGroupIds])
            · rw [POSTcore_reach env tr text strats key hb ht hsE hk hke]
              by_cases hempty : (successfulSelections (branchSelections env strats)).isEmpty
              · rw [if_pos hempty]
                intro s hs
                simp only [persistedGroupIds_append,
                  persistedGroupIds_preTrace, List.append_nil] at hs
                exact .inl hs
              · rw [if_neg hempty]
                intro s hs
                rcases persistedGroupIds_finishRequest env text _ _ s hs with h | h
                · simp only [persistedGroupIds_append,
                    persistedGroupIds_preTrace, List.append_nil] at h
                  exact .inl h
                · exact .inr h

lemma persistedGroupIds_POST (env : Env) :
    ∀ s ∈ persistedGroupIds (POST env).2, s = freshGroupId env.now env.rand := by
  intro s hs
  cases hu : env.userId with
  | none =>
    rw [POST_userId_none env hu] at hs
    rcases persistedGroupIds_POSTcore env [] s hs with h | h
    · exact absurd h (by simp [persistedGroupIds])
    · exact h
  | some uid =>
    cases hrl : env.rateLimit.success with
    | false =>
      rw [POST_quota_reject env uid hu hrl] at hs
      exact absurd hs (by simp [persistedGroupIds])
    | true =>
      rw [POST_gate_passed env uid hu hrl] at hs
      rcases persistedGroupIds_POSTcore env _ s hs with h | h
      · exact absurd h (by simp [persistedGroupIds])
      · exact h

/-! ### Membership facts about the traces of the early returns -/

lemma persistWrite_not_mem_preTrace (env : Env) (text : String)
    (strats : List Strategy) (d : GenerationData) :
    Effect.persistWrite d ∉ preTrace env text strats := by
  simp [preTrace]

lemma dbUserLookup_not_mem_preTrace (env : Env) (text : String)
    (strats : List Strategy) (uid : String) :
    Effect.dbUserLookup uid ∉ preTrace env text strats := by
  simp [preTrace]

/-! ### Concrete fixtures -/

/-- A strategy with the emotional perspective. -/
def sE : Strategy :=
  { keywords := ["happy"], topic := none, perspective := .emotional, reasoning := "r1" }

/-- A strategy with the literal perspective. -/
def sL : Strategy :=
  { keywords := ["typing"], topic := some "code", perspective := .literal, reasoning := "r2" }

/-- A strategy with the sarcastic perspective. -/
def sS : Strategy :=
  { keywords := ["sure jan"], topic := none, perspective := .sarcastic, reasoning := "r3" }

/-- The three strategies in the order the prompt asks for. -/
def strats3 : List Strategy := [sE, sL, sS]

def gif0 : Gif := { title := "t0", altText := "a0", url := "u0" }

def gif1 : Gif := { title := "t1", altText := "a1", url := "u1" }

/-- An identified request whose quota check rejects. -/
def envQuota : Env :=
  { userId := some "u", rateLimit := { success := false, limit := 10, remaining := 0, reset := 99 },
    body := .ok (.str "hi"), strategies := .ok strats3, giphyApiKey := some "k",
    search := fun _ => .ok [], select := fun _ => .fail, dbUser := none,
    persistOk := fun _ => true, now := 0, rand := "r" }

/-- An anonymous request on which every Giphy search fails. -/
def envNoResults : Env :=
  { userId := none, rateLimit := { success := true, limit := 10, remaining := 9, reset := 5 },
    body := .ok (.str "hello"), strategies := .ok strats3, giphyApiKey := some "k",
    search := fun _ => .httpFailure, select := fun _ => .fail, dbUser := none,
    persistOk := fun _ => true, now := 0, rand := "r" }

/-- An anonymous request on which exactly the first branch finds a candidate. -/
def envOne : Env :=
  { userId := none, rateLimit := { success := true, limit := 10, remaining := 9, reset := 5 },
    body := .ok (.str "hello"), strategies := .ok strats3, giphyApiKey := some "k",
    search := fun i => if i = 0 then .ok [gif0] else .ok [],
    select := fun _ => .ok { selectedIndex := 0, reasoning := "good" }, dbUser := none,
    persistOk := fun _ => true, now := 0, rand := "r" }

/-! ### Claim theorems (generation route) -/

/-- C8: for an identified caller whose quota check rejects, the handler
answers with the 429 body carrying the reset time, and the trace holds the
rate-limit check alone: no strategy-derivation call, no search call, no
selection call and no write ever happen, so the gate runs before the
Strategy Deriver. -/
theorem quota_gate_rejects_before_work (env : Env) (uid : String)
    (hu : env.userId = some uid) (hrl : env.rateLimit.success = false) :
    POST env = (.quotaExceeded env.rateLimit.limit env.rateLimit.reset,
      [Effect.rateLimitCheck uid]) ∧
    noStrategyCalls (POST env).2 ∧ noSearchCalls (POST env).2 ∧
    noSelectionCalls (POST env).2 ∧ noPersist (POST env).2 := by
  have h := POST_quota_reject env uid hu hrl
  refine ⟨h, ?_, ?_, ?_, ?_⟩ <;> rw [h] <;>
    simp [noStrategyCalls, noSearchCalls, noSelectionCalls, noPersist]

/-- Witness for C8 at a concrete rejected request. -/
theorem quota_gate_rejects_before_work_witness :
    POST envQuota = (.quotaExceeded 10 99, [Effect.rateLimitCheck "u"]) ∧
    noStrategyCalls (POST envQuota).2 ∧ noSearchCalls (POST envQuota).2 ∧
    noSelectionCalls (POST envQuota).2 ∧ noPersist (POST envQuota).2 :=
  quota_gate_rejects_before_work envQuota "u" rfl rfl

/-- C6: when no branch has a chosen candidate (the successful-selection list
is empty), the handler answers 404, no success body is produced, and the
trace holds no write and no user-row lookup: nothing is persisted. -/
theorem zero_success_not_found (env : Env) (text key : String)
    (strats : List Strategy)
    (hb : env.body = .ok (.str text)) (ht : text ≠ "")
    (hs : env.strategies = .ok strats)
    (hk : env.giphyApiKey = some key) (hke : key ≠ "")
    (hgate : env.userId = none ∨ env.rateLimit.success = true)
    (hsucc : successfulSelections (branchSelections env strats) = []) :
    (POST env).1 = .notFound ∧ noPersist (POST env).2 ∧
    (∀ uid, Effect.dbUserLookup uid ∉ (POST env).2) := by
  have hreach : ∀ tr, POSTcore env tr = (.notFound, tr ++ preTrace env text strats) := by
    intro tr
    rw [POSTcore_reach env tr text strats key hb ht hs hk hke, hsucc]
    simp
  cases hu : env.userId with
  | none =>
    rw [POST_userId_none env hu, hreach []]
    refine ⟨rfl, ?_, ?_⟩
    · intro d hd
      simp only [List.nil_append] at hd
      exact persistWrite_not_mem_preTrace env text strats d hd
    · intro uid hd
      simp only [List.nil_append] at hd
      exact dbUserLookup_not_mem_preTrace env text strats uid hd
  | some uid =>
    have hrl : env.rateLimit.success = true := by
      rcases hgate with h | h
      · rw [hu] at h; exact absurd h (by simp)
      · exact h
    rw [POST_gate_passed env uid hu hrl, hreach _]
    refine ⟨rfl, ?_, ?_⟩
    · intro d hd
      rcases List.mem_append.mp hd with h | h
      · simp at h
      · exact persistWrite_not_mem_preTrace env text strats d h
    · intro uid2 hd
      rcases List.mem_append.mp hd with h | h
      · simp at h
      · exact dbUserLookup_not_mem_preTrace env text strats uid2 h

/-- Witness for C6: all three searches fail on a concrete anonymous request. -/
theorem zero_success_not_found_witness :
    (POST envNoResults).1 = .notFound ∧ noPersist (POST envNoResults).2 ∧
    (∀ uid, Effect.dbUserLookup uid ∉ (POST envNoResults).2) :=
  zero_success_not_found envNoResults "hello" "k" strats3 rfl (by decide) rfl rfl
    (by decide) (.inl rfl) rfl

/-- C7: whenever the handler answers 200, the body lists exactly the
successful selections (one result per successful branch, failed branches
absent), `totalFound` is their count, there is at least one of them, and
`requestedPerspectives` is the constant 3. -/
theorem degraded_result_shape (env : Env) (body : SuccessBody)
    (strats : List Strategy) (hs : env.strategies = .ok strats)
    (hok : (POST env).1 = .ok body) :
    1 ≤ (successfulSelections (branchSelections env strats)).length ∧
    body.results.length = (successfulSelections (branchSelections env strats)).length ∧
    body.totalFound = (successfulSelections (branchSelections env strats)).length ∧
    body.requestedPerspectives = 3 ∧
    body.results.map ResultItem.perspective
      = (successfulSelections (branchSelections env strats)).map
          fun s => s.strategy.perspective := by
  obtain ⟨hbody, hne⟩ := POST_ok_inversion env body strats hs hok
  subst hbody
  have hall : ∀ s ∈ successfulSelections (branchSelections env strats),
      s.selectedGif.isSome := fun s h => mem_successfulSelections h
  refine ⟨?_, ?_, rfl, rfl, ?_⟩
  · rcases hl : successfulSelections (branchSelections env strats) with _ | ⟨a, rest⟩
    · rw [hl] at hne; exact absurd hne (by simp)
    · simp
  · exact filterMap_toResultItem_length _ hall
  · exact filterMap_toResultItem_map_perspective _ hall

/-- Witness for C7 at a concrete request with exactly one successful branch. -/
theorem degraded_result_shape_witness :
    1 ≤ (successfulSelections (branchSelections envOne strats3)).length ∧
    (okBody envOne (successfulSelections (branchSelections envOne strats3))).results.length
      = (successfulSelections (branchSelections envOne strats3)).length ∧
    (okBody envOne (successfulSelections (branchSelections envOne strats3))).totalFound
      = (successfulSelections (branchSelections envOne strats3)).length ∧
    (okBody envOne (successfulSelections (branchSelections envOne strats3))).requestedPerspectives = 3 ∧
    (okBody envOne (successfulSelections (branchSelections envOne strats3))).results.map
        ResultItem.perspective
      = (successfulSelections (branchSelections envOne strats3)).map
          fun s => s.strategy.perspective :=
  degraded_result_shape envOne
    (okBody envOne (successfulSelections (branchSelections envOne strats3))) strats3 rfl rfl

/-- An identified request on which everything succeeds except the record
writes. -/
def envPersistFail : Env :=
  { userId := some "u", rateLimit := { success := true, limit := 10, remaining := 9, reset := 5 },
    body := .ok (.str "hello"), strategies := .ok strats3, giphyApiKey := some "k",
    search := fun _ => .ok [gif0, gif1],
    select := fun _ => .ok { selectedIndex := 0, reasoning := "good" },
    dbUser := some { id := "dbid" }, persistOk := fun _ => false, now := 7, rand := "abc" }

/-- C1 counterexample: on `envPersistFail` all three branches succeed, yet the
failed writes make the handler answer the catch-all 500 instead of the
already-computed success body, refuting the claim that a persistence failure
only gets logged while the caller still receives the result set. -/
theorem persistence_failure_drops_response_cex :
    (successfulSelections (branchSelections envPersistFail strats3)).length = 3 ∧
    (POST envPersistFail).1 = .serverError ∧
    ∀ b, (POST envPersistFail).1 ≠ .ok b := by
  refine ⟨rfl, rfl, ?_⟩
  intro b h
  exact PostResponse.noConfusion ((rfl : (POST envPersistFail).1 = .serverError).symm.trans h)

/-- C1 (amended): for an identified, admitted caller with a user row, if any
of the record writes fails (which presumes at least one successful selection,
as zero selections fire zero writes and cannot fail), the whole request ends
in the catch-all 500: the computed response is not returned. -/
theorem persistence_failure_fails_request (env : Env) (uid : String) (du : DbUser)
    (text key : String) (strats : List Strategy)
    (hu : env.userId = some uid) (hrl : env.rateLimit.success = true)
    (hb : env.body = .ok (.str text)) (ht : text ≠ "")
    (hs : env.strategies = .ok strats)
    (hk : env.giphyApiKey = some key) (hke : key ≠ "")
    (hdb : env.dbUser = some du)
    (hfail : ((List.range (successfulSelections (branchSelections env strats)).length).all
      env.persistOk) = false) :
    (POST env).1 = .serverError ∧ ∀ b, (POST env).1 ≠ .ok b := by
  have hne : (successfulSelections (branchSelections env strats)).isEmpty = false := by
    rcases hl : successfulSelections (branchSelections env strats) with _ | ⟨a, rest⟩
    · rw [hl] at hfail; exact absurd hfail (by simp)
    · simp
  have hmain : (POST env).1 = .serverError := by
    rw [POST_gate_passed env uid hu hrl,
      POSTcore_reach env _ text strats key hb ht hs hk hke, if_neg (by simp [hne])]
    unfold finishRequest
    rw [hu, hdb]
    dsimp only
    rw [if_neg (by simp [hfail])]
  refine ⟨hmain, ?_⟩
  intro b h
  exact PostResponse.noConfusion (hmain.symm.trans h)

/-- Witness for the amended C1 at the concrete failing request. -/
theorem persistence_failure_fails_request_witness :
    (POST envPersistFail).1 = .serverError ∧ ∀ b, (POST envPersistFail).1 ≠ .ok b :=
  persistence_failure_fails_request envPersistFail "u" { id := "dbid" } "hello" "k" strats3
    rfl rfl rfl (by decide) rfl rfl (by decide) rfl rfl

/-- An identified, admitted request whose body text is empty. -/
def envEmptyText : Env :=
  { userId := some "u", rateLimit := { success := true, limit := 10, remaining := 9, reset := 5 },
    body := .ok (.str ""), strategies := .ok strats3, giphyApiKey := some "k",
    search := fun _ => .ok [], select := fun _ => .fail, dbUser := none,
    persistOk := fun _ => true, now := 0, rand := "r" }

/-- C3 counterexample: an identified request with empty text is rejected with
InvalidInput only after the quota check and the identity upsert have already
run, refuting the claim that the rejection happens before the quota check and
the identity-store upsert. -/
theorem invalid_input_after_quota_cex :
    POST envEmptyText = (.invalidInput, [Effect.rateLimitCheck "u", Effect.userUpsert "u"]) ∧
    Effect.rateLimitCheck "u" ∈ (POST envEmptyText).2 ∧
    Effect.userUpsert "u" ∈ (POST envEmptyText).2 := by
  refine ⟨rfl, ?_, ?_⟩ <;> decide

/-- C3 (amended): empty or malformed text makes the handler (when the quota
gate does not already reject) answer InvalidInput with no strategy call, no
search call, no selection call and no write; for an anonymous caller no
external call at all precedes the rejection, while for an identified caller
the quota check and the identity upsert run first. -/
theorem invalid_input_rejection_order (env : Env)
    (hbody : env.body = .ok .notString ∨ env.body = .ok (.str ""))
    (hgate : env.userId = none ∨ env.rateLimit.success = true) :
    (POST env).1 = .invalidInput ∧
    noStrategyCalls (POST env).2 ∧ noSearchCalls (POST env).2 ∧
    noSelectionCalls (POST env).2 ∧ noPersist (POST env).2 ∧
    (env.userId = none → (POST env).2 = []) ∧
    (∀ uid, env.userId = some uid →
      (POST env).2 = [Effect.rateLimitCheck uid, Effect.userUpsert uid]) := by
  have hcore : ∀ tr, POSTcore env tr = (.invalidInput, tr) := by
    intro tr
    rcases hbody with h | h
    · exact POSTcore_invalid_notString env tr h
    · exact POSTcore_invalid_empty env tr h
  cases hu : env.userId with
  | none =>
    rw [POST_userId_none env hu, hcore []]
    exact ⟨rfl, by simp [noStrategyCalls], by simp [noSearchCalls],
      by simp [noSelectionCalls], by simp [noPersist], fun _ => rfl,
      fun uid h => by simp at h⟩
  | some uid =>
    have hrl : env.rateLimit.success = true := by
      rcases hgate with h | h
      · rw [hu] at h; exact absurd h (by simp)
      · exact h
    rw [POST_gate_passed env uid hu hrl, hcore _]
    refine ⟨rfl, by simp [noStrategyCalls], by simp [noSearchCalls],
      by simp [noSelectionCalls], by simp [noPersist], fun h => by simp at h, ?_⟩
    intro uid2 h2
    injection h2 with h3
    rw [h3]

/-- Witness for the amended C3 at the concrete empty-text request. -/
theorem invalid_input_rejection_order_witness :
    (POST envEmptyText).1 = .invalidInput ∧
    noStrategyCalls (POST envEmptyText).2 ∧ noSearchCalls (POST envEmptyText).2 ∧
    noSelectionCalls (POST envEmptyText).2 ∧ noPersist (POST envEmptyText).2 ∧
    (envEmptyText.userId = none → (POST envEmptyText).2 = []) ∧
    (∀ uid, envEmptyText.userId = some uid →
      (POST envEmptyText).2 = [Effect.rateLimitCheck uid, Effect.userUpsert uid]) :=
  invalid_input_rejection_order envEmptyText (.inr rfl) (.inr rfl)

/-- C2 counterexample: on a branch with two candidates, a selection reply
with the out-of-range index 5 makes the selector fall back to the first
candidate, but the outcome keeps `error = false` and the reply reasoning:
it is not marked degraded and does not carry the fixed degraded-mode
string, refuting that part of the claim. -/
theorem out_of_range_not_degraded_cex :
    runSelection { strategy := sE, gifs := [gif0, gif1], error := none }
        (.ok { selectedIndex := 5, reasoning := "nice pick" })
      = { strategy := sE, selectedGif := some gif0, reasoning := "nice pick",
          error := false } ∧
    ¬ ((runSelection { strategy := sE, gifs := [gif0, gif1], error := none }
          (.ok { selectedIndex := 5, reasoning := "nice pick" })).error = true ∧
       (runSelection { strategy := sE, gifs := [gif0, gif1], error := none }
          (.ok { selectedIndex := 5, reasoning := "nice pick" })).reasoning
         = "AI selection failed, using top result") := by
  exact ⟨rfl, by decide⟩

/-- C2 (amended): on a branch with at least one candidate, a failing
selection call falls back to the first candidate with `error = true` and the
fixed degraded-mode string, while an out-of-range index also falls back to
the first candidate but silently: `error` stays false and the reasoning is
whatever the service replied. -/
theorem selection_fallback_policy (s : Strategy) (e : Option String) (g : Gif)
    (gs : List Gif) (i : Nat) (rs : String) :
    runSelection { strategy := s, gifs := g :: gs, error := e } .fail
      = { strategy := s, selectedGif := some g,
          reasoning := "AI selection failed, using top result", error := true } ∧
    runSelection { strategy := s, gifs := g :: gs, error := e }
        (.ok { selectedIndex := i, reasoning := rs })
      = { strategy := s, selectedGif := some ((g :: gs).getD i g),
          reasoning := rs, error := false } ∧
    ((g :: gs).length ≤ i → (g :: gs).getD i g = g) := by
  refine ⟨rfl, rfl, ?_⟩
  intro h
  rw [List.getD_eq_getElem?_getD, List.getElem?_eq_none h, Option.getD_none]

/-- Witness for the amended C2 at a concrete two-candidate branch with an
out-of-range index. -/
theorem selection_fallback_policy_witness :
    runSelection { strategy := sE, gifs := [gif0, gif1], error := none } .fail
      = { strategy := sE, selectedGif := some gif0,
          reasoning := "AI selection failed, using top result", error := true } ∧
    runSelection { strategy := sE, gifs := [gif0, gif1], error := none }
        (.ok { selectedIndex := 5, reasoning := "why not" })
      = { strategy := sE, selectedGif := some ([gif0, gif1].getD 5 gif0),
          reasoning := "why not", error := false } ∧
    ([gif0, gif1].length ≤ 5 → [gif0, gif1].getD 5 gif0 = gif0) :=
  selection_fallback_policy sE none gif0 [gif1] 5 "why not"

/-- The perspective rank asserted by the ordering claim: emotional before
literal before sarcastic. Used only to state that claim; the handler itself
never sorts by it. -/
def specPerspRank : Perspective → Nat
  | .emotional => 0
  | .literal => 1
  | .sarcastic => 2

/-- The order induced by `specPerspRank`. -/
def specPerspLE (a b : Perspective) : Prop := specPerspRank a ≤ specPerspRank b

instance : DecidableRel specPerspLE :=
  fun a b => inferInstanceAs (Decidable (specPerspRank a ≤ specPerspRank b))

/-- The perspectives of the results of a response, empty for non-200. -/
def resultPerspectives (r : PostResponse) : List Perspective :=
  match r with
  | .ok b => b.results.map ResultItem.perspective
  | _ => []

/-- An anonymous request whose derived strategies arrive in the order
sarcastic, emotional, literal, every branch succeeding. -/
def envOrder : Env :=
  { userId := none, rateLimit := { success := true, limit := 10, remaining := 9, reset := 5 },
    body := .ok (.str "hi"), strategies := .ok [sS, sE, sL], giphyApiKey := some "k",
    search := fun _ => .ok [gif0],
    select := fun _ => .ok { selectedIndex := 0, reasoning := "good" }, dbUser := none,
    persistOk := fun _ => true, now := 0, rand := "r" }

/-- C4 counterexample: a schema-valid strategy array ordered sarcastic,
emotional, literal (the schema fixes neither order nor distinctness) makes
every branch succeed and the result list keeps exactly that order, so the
response order does not follow perspective rank. -/
theorem result_order_not_rank_cex :
    SchemaValidStrategies [sS, sE, sL] ∧
    resultPerspectives (POST envOrder).1 = [.sarcastic, .emotional, .literal] ∧
    ¬ List.Pairwise specPerspLE [Perspective.sarcastic, .emotional, .literal] := by
  refine ⟨⟨rfl, by decide⟩, rfl, ?_⟩
  intro h
  have h1 := (List.pairwise_cons.mp h).1 .emotional (by simp)
  exact absurd h1 (by decide)

/-- C4 (amended): the order of the results follows the order of the derived
strategy array — each branch keeps its array position through both
`Promise.all` joins, independently of completion order — and it follows
perspective rank exactly when the strategies arrive rank-ordered (which the
prompt requests but the schema does not enforce). -/
theorem result_order_follows_strategy_order (env : Env) (body : SuccessBody)
    (strats : List Strategy) (hs : env.strategies = .ok strats)
    (hok : (POST env).1 = .ok body) :
    body.results.map ResultItem.perspective
      = (successfulSelections (branchSelections env strats)).map
          (fun s => s.strategy.perspective) ∧
    (List.Pairwise specPerspLE (strats.map Strategy.perspective) →
      List.Pairwise specPerspLE (body.results.map ResultItem.perspective)) := by
  obtain ⟨hbody, _⟩ := POST_ok_inversion env body strats hs hok
  subst hbody
  have hall : ∀ s ∈ successfulSelections (branchSelections env strats),
      s.selectedGif.isSome := fun s h => mem_successfulSelections h
  have hmap := filterMap_toResultItem_map_perspective _ hall
  refine ⟨hmap, ?_⟩
  intro hp
  have hres : (okBody env (successfulSelections (branchSelections env strats))).results
      = (successfulSelections (branchSelections env strats)).filterMap toResultItem := rfl
  rw [hres, hmap]
  have hbs : (branchSelections env strats).map (fun s => s.strategy.perspective)
      = strats.map Strategy.perspective := by
    have h2 := congrArg (List.map Strategy.perspective)
      (branchSelections_map_strategy env strats)
    rw [List.map_map] at h2
    exact h2
  rw [← hbs] at hp
  rw [List.pairwise_map] at hp ⊢
  exact hp.sublist (List.filter_sublist _)

/-- Witness for the amended C4 at the concrete all-success request
`envOrder`. -/
theorem result_order_follows_strategy_order_witness :
    (okBody envOrder (successfulSelections (branchSelections envOrder [sS, sE, sL]))).results.map
        ResultItem.perspective
      = (successfulSelections (branchSelections envOrder [sS, sE, sL])).map
          (fun s => s.strategy.perspective) ∧
    (List.Pairwise specPerspLE ([sS, sE, sL].map Strategy.perspective) →
      List.Pairwise specPerspLE
        ((okBody envOrder (successfulSelections (branchSelections envOrder [sS, sE, sL]))).results.map
          ResultItem.perspective)) :=
  result_order_follows_strategy_order envOrder
    (okBody envOrder (successfulSelections (branchSelections envOrder [sS, sE, sL])))
    [sS, sE, sL] rfl rfl

/-- An identified request with input text "first", one branch, persisting at
clock 7 with suffix "abc". -/
def envCollideA : Env :=
  { userId := some "u", rateLimit := { success := true, limit := 10, remaining := 9, reset := 5 },
    body := .ok (.str "first"), strategies := .ok [sE], giphyApiKey := some "k",
    search := fun _ => .ok [gif0],
    select := fun _ => .ok { selectedIndex := 0, reasoning := "good" },
    dbUser := some { id := "d1" }, persistOk := fun _ => true, now := 7, rand := "abc" }

/-- Like `envCollideA` but a different request: input text "second". -/
def envCollideB : Env :=
  { userId := some "u", rateLimit := { success := true, limit := 10, remaining := 9, reset := 5 },
    body := .ok (.str "second"), strategies := .ok [sE], giphyApiKey := some "k",
    search := fun _ => .ok [gif0],
    select := fun _ => .ok { selectedIndex := 0, reasoning := "good" },
    dbUser := some { id := "d1" }, persistOk := fun _ => true, now := 7, rand := "abc" }

/-- C5 counterexample: two distinct requests (different input text), each
persisting a group, handled at the same millisecond with the same drawn
random suffix, write the identical group id `group_7_abc`: nothing prevents a
group id from being produced twice. -/
theorem group_id_collision_cex :
    envCollideA.body ≠ envCollideB.body ∧
    persistedGroupIds (POST envCollideA).2 = ["group_7_abc"] ∧
    persistedGroupIds (POST envCollideB).2 = ["group_7_abc"] := by
  refine ⟨?_, rfl, rfl⟩
  intro h
  simp [envCollideA, envCollideB] at h

/-- C5 (amended): every persisted record of a request carries the group id
`freshGroupId now rand`, a pure function of the millisecond clock and the
drawn random suffix; at a fixed millisecond two group ids coincide exactly
when the suffixes coincide. Uniqueness across the lifetime therefore holds
only as far as the (clock, suffix) pairs differ. -/
theorem group_id_determined_by_clock_and_suffix :
    (∀ env : Env, ∀ s ∈ persistedGroupIds (POST env).2,
      s = freshGroupId env.now env.rand) ∧
    (∀ (t : Nat) (r1 r2 : String), freshGroupId t r1 = freshGroupId t r2 ↔ r1 = r2) := by
  refine ⟨persistedGroupIds_POST, ?_⟩
  intro t r1 r2
  constructor
  · intro h
    unfold freshGroupId at h
    have h2 := congrArg String.data h
    simp only [String.data_append, List.append_assoc, List.append_cancel_left_eq] at h2
    exact String.ext h2
  · intro h
    rw [h]

/-- Witness for the amended C5: the single record of `envCollideA` carries
`freshGroupId 7 "abc"`, and at clock 7 the ids of suffixes "x" and "y"
coincide exactly when the suffixes do. -/
theorem group_id_determined_by_clock_and_suffix_witness :
    "group_7_abc" = freshGroupId 7 "abc" ∧
    (freshGroupId 7 "x" = freshGroupId 7 "y" ↔ "x" = "y") :=
  ⟨group_id_determined_by_clock_and_suffix.1 envCollideA "group_7_abc" (by decide),
   group_id_determined_by_clock_and_suffix.2 7 "x" "y"⟩

end Generate

namespace History

/-- One stored generation row, as read back by the history route
(the `Generation` interface at the top of the file). -/
structure Generation where
  id : String
  inputText : String
  createdAt : Nat
  perspective : Option String
  generationGroupId : Option String
  gifUrl : String
  gifTitle : String
  keywords : List String
  topic : Option String
  deriving DecidableEq, Repr

/-- `gen.generationGroupId || gen.id`: JS truthiness, so a null or empty
group id falls back to the own record id (the legacy-record case). -/
def groupKey (g : Generation) : String :=
  match g.generationGroupId with
  | none => g.id
  | some s => if s = "" then g.id else s

/-- One step of the grouping loop over the fetched rows: append the record to
the bucket of its key, creating the bucket at the end on first sight (the JS
`Map` keeps insertion order of keys). -/
def addToGroups (acc : List (String × List Generation)) (g : Generation) :
    List (String × List Generation) :=
  if acc.any fun p => p.1 == groupKey g then
    acc.map fun p => if p.1 == groupKey g then (p.1, p.2 ++ [g]) else p
  else acc ++ [(groupKey g, [g])]

/-- The grouping of all fetched rows, in key first-occurrence order. -/
def groupGenerations (gens : List Generation) : List (String × List Generation) :=
  gens.foldl addToGroups []

/-- The within-group sort key:
`order[a.perspective] ?? 999` with `order = \x7b emotional: 0, literal: 1, sarcastic: 2 \x7d`. -/
def perspectiveRank (p : Option String) : Nat :=
  match p with
  | some "emotional" => 0
  | some "literal" => 1
  | some "sarcastic" => 2
  | _ => 999

/-- The comparator order of the within-group sort. -/
def rankLE (a b : Generation) : Prop :=
  perspectiveRank a.perspective ≤ perspectiveRank b.perspective

instance : DecidableRel rankLE :=
  fun a b => inferInstanceAs (Decidable (perspectiveRank a.perspective ≤ perspectiveRank b.perspective))

instance : IsTotal Generation rankLE :=
  ⟨fun a b => Nat.le_total (perspectiveRank a.perspective) (perspectiveRank b.perspective)⟩

instance : IsTrans Generation rankLE :=
  ⟨fun _ _ _ hab hbc => Nat.le_trans hab hbc⟩

/-- `gifs.sort((a, b) => aOrder - bOrder)`: the ECMAScript sort is stable and
ascending in the comparator, which insertion sort over the reflexive rank
order models exactly. -/
def sortGifs (l : List Generation) : List Generation :=
  List.insertionSort rankLE l

/-- One entry of the `generations` array of the history response. -/
structure GroupOut where
  groupId : String
  inputText : String
  createdAt : Nat
  gifs : List Generation
  deriving DecidableEq, Repr

/-- The object built for one bucket. `inputText` and `createdAt` read `gifs[0]`
before the in-place sort runs, hence come from the head of the bucket in
insertion order. -/
def toGroupOut (p : String × List Generation) : Option GroupOut :=
  match p.2 with
  | [] => none
  | g :: _ =>
    some { groupId := p.1, inputText := g.inputText, createdAt := g.createdAt,
           gifs := sortGifs p.2 }

/-- The grouped array the route paginates over. -/
def groupedArray (gens : List Generation) : List GroupOut :=
  (groupGenerations gens).filterMap toGroupOut

/-- The `pagination` object of the paged history response. -/
structure Pagination where
  total : Nat
  page : Nat
  limit : Nat
  totalPages : Nat
  deriving DecidableEq, Repr

/-- A history 200 body. The route returns the early `\x7b generations: [] \x7d`
body with no `pagination` member at all when the caller has no profile row,
modelled as `pagination = none`. -/
structure HistoryBody where
  generations : List GroupOut
  pagination : Option Pagination
  deriving DecidableEq, Repr

/-- The possible responses of the GET handler. -/
inductive HistoryResponse where
  | unauthorized
  | ok (body : HistoryBody)
  deriving DecidableEq, Repr

/-- The external world of the GET handler: the auth result, the profile-row
lookup, the parsed positive query parameters (defaults 1 and 12), and the
stored rows for this user, ordered by `createdAt` descending as the query
requests. -/
structure HEnv where
  userId : Option String
  user : Option Generate.DbUser
  page : Nat
  limit : Nat
  allGenerations : List Generation

/-- The `GET /api/history` handler: authenticate, fetch the profile row
(returning the bare empty body when it is absent), group all rows, then
paginate over groups with `slice(skip, skip + limit)` and
`totalPages = ceil(groupCount / limit)`. -/
def GET (env : HEnv) : HistoryResponse :=
  match env.userId with
  | none => .unauthorized
  | some _ =>
    match env.user with
    | none => .ok { generations := [], pagination := none }
    | some _ =>
      let skip := (env.page - 1) * env.limit
      let arr := groupedArray env.allGenerations
      let paginated := (arr.drop skip).take env.limit
      .ok { generations := paginated,
            pagination := some { total := arr.length, page := env.page,
                                 limit := env.limit,
                                 totalPages := (arr.length + env.limit - 1) / env.limit } }

/-! ### The content stored under one key of the grouping accumulator -/

/-- The concatenation of the buckets stored under key `k`. -/
def listInGroups (acc : List (String × List Generation)) (k : String) : List Generation :=
  acc.foldr (fun p r => if p.1 = k then p.2 ++ r else r) []

lemma listInGroups_nil (k : String) : listInGroups [] k = [] := rfl

lemma listInGroups_cons (p : String × List Generation)
    (acc : List (String × List Generation)) (k : String) :
    listInGroups (p :: acc) k
      = if p.1 = k then p.2 ++ listInGroups acc k else listInGroups acc k := rfl

lemma listInGroups_append (a b : List (String × List Generation)) (k : String) :
    listInGroups (a ++ b) k = listInGroups a k ++ listInGroups b k := by
  induction a with
  | nil => rfl
  | cons p rest ih =>
    rw [List.cons_append, listInGroups_cons, listInGroups_cons, ih]
    by_cases h : p.1 = k
    · rw [if_pos h, if_pos h, List.append_assoc]
    · rw [if_neg h, if_neg h]

lemma listInGroups_of_not_mem (acc : List (String × List Generation)) (k : String)
    (h : ∀ p ∈ acc, p.1 ≠ k) : listInGroups acc k = [] := by
  induction acc with
  | nil => rfl
  | cons p rest ih =>
    rw [listInGroups_cons, if_neg (h p (List.mem_cons_self ..)),
      ih fun q hq => h q (List.mem_cons_of_mem _ hq)]

lemma keys_addToGroups (acc : List (String × List Generation)) (g : Generation) :
    (addToGroups acc g).map Prod.fst
      = if acc.any (fun p => p.1 == groupKey g) then acc.map Prod.fst
        else acc.map Prod.fst ++ [groupKey g] := by
  unfold addToGroups
  by_cases h : acc.any fun p => p.1 == groupKey g
  · rw [if_pos h, if_pos h, List.map_map]
    have hf : (Prod.fst ∘ fun p : String × List Generation =>
        if p.1 == groupKey g then (p.1, p.2 ++ [g]) else p) = Prod.fst := by
      funext p
      by_cases hp : p.1 == groupKey g
      · simp [eq_of_beq hp]
      · have hne : p.1 ≠ groupKey g := by simpa using hp
        simp [hne]
    rw [hf]
  · rw [if_neg h, if_neg h, List.map_append]
    rfl

lemma nodupKeys_addToGroups (acc : List (String × List Generation)) (g : Generation)
    (h : (acc.map Prod.fst).Nodup) : ((addToGroups acc g).map Prod.fst).Nodup := by
  rw [keys_addToGroups]
  by_cases hc : acc.any fun p => p.1 == groupKey g
  · rw [if_pos hc]; exact h
  · rw [if_neg hc]
    have hnot : groupKey g ∉ acc.map Prod.fst := by
      intro hmem
      rcases List.mem_map.mp hmem with ⟨p, hp, hfst⟩
      exact hc (List.any_eq_true.mpr ⟨p, hp, by rw [hfst]; exact beq_self_eq_true _⟩)
    simp [List.nodup_append, h, hnot]

lemma map_append_g_untouched (acc : List (String × List Generation)) (gk : String)
    (g : Generation) (h : ∀ p ∈ acc, p.1 ≠ gk) :
    (acc.map fun p => if p.1 == gk then (p.1, p.2 ++ [g]) else p) = acc := by
  induction acc with
  | nil => rfl
  | cons p rest ih =>
    rw [List.map_cons, ih fun q hq => h q (List.mem_cons_of_mem _ hq)]
    have hp : (p.1 == gk) = false :=
      beq_eq_false_iff_ne.mpr (h p (List.mem_cons_self ..))
    rw [if_neg (by simp [hp])]

lemma listInGroups_map_append_g (acc : List (String × List Generation)) (gk : String)
    (g : Generation) (k : String) (h : (acc.map Prod.fst).Nodup)
    (hmem : gk ∈ acc.map Prod.fst) :
    listInGroups (acc.map fun p => if p.1 == gk then (p.1, p.2 ++ [g]) else p) k
      = listInGroups acc k ++ if gk = k then [g] else [] := by
  induction acc with
  | nil => simp at hmem
  | cons p rest ih =>
    rw [List.map_cons] at h
    have hhead := (List.nodup_cons.mp h).1
    have htail := (List.nodup_cons.mp h).2
    rw [List.map_cons]
    by_cases hp : p.1 = gk
    · have hif : (if p.1 == gk then (p.1, p.2 ++ [g]) else p) = (p.1, p.2 ++ [g]) := by
        simp [hp]
      rw [hif]
      have hrest : (rest.map fun q => if q.1 == gk then (q.1, q.2 ++ [g]) else q) = rest :=
        map_append_g_untouched rest gk g fun q hq he =>
          hhead (by rw [hp, ← he]; exact List.mem_map_of_mem Prod.fst hq)
      rw [hrest, listInGroups_cons, listInGroups_cons]
      by_cases hk : p.1 = k
      · rw [if_pos hk, if_pos hk,
          listInGroups_of_not_mem rest k fun q hq he =>
            hhead (by rw [hk, ← he]; exact List.mem_map_of_mem Prod.fst hq),
          if_pos (hp ▸ hk : gk = k)]
        simp
      · rw [if_neg hk, if_neg hk, if_neg (show ¬ gk = k from fun he => hk (hp.trans he))]
        simp
    · have hif : (if p.1 == gk then (p.1, p.2 ++ [g]) else p) = p := by
        simp [beq_eq_false_iff_ne.mpr hp]
      rw [hif]
      have hmem2 : gk ∈ rest.map Prod.fst := by
        rw [List.map_cons] at hmem
        rcases List.mem_cons.mp hmem with he | hm
        · exact absurd he.symm hp
        · exact hm
      rw [listInGroups_cons, listInGroups_cons, ih htail hmem2]
      by_cases hk : p.1 = k
      · rw [if_pos hk, if_pos hk, List.append_assoc]
      · rw [if_neg hk, if_neg hk]

lemma listInGroups_addToGroups (acc : List (String × List Generation)) (g : Generation)
    (k : String) (h : (acc.map Prod.fst).Nodup) :
    listInGroups (addToGroups acc g) k
      = listInGroups acc k ++ if groupKey g = k then [g] else [] := by
  unfold addToGroups
  by_cases hc : acc.any fun p => p.1 == groupKey g
  · rw [if_pos hc]
    apply listInGroups_map_append_g acc (groupKey g) g k h
    rcases List.any_eq_true.mp hc with ⟨p, hp, hbeq⟩
    exact List.mem_map.mpr ⟨p, hp, eq_of_beq hbeq⟩
  · rw [if_neg hc, listInGroups_append]
    by_cases hg : groupKey g = k
    · simp [listInGroups_cons, listInGroups_nil, hg]
    · simp [listInGroups_cons, listInGroups_nil, hg]

lemma listInGroups_foldl (gens : List Generation) :
    ∀ acc : List (String × List Generation), (acc.map Prod.fst).Nodup → ∀ k : String,
      listInGroups (gens.foldl addToGroups acc) k
        = listInGroups acc k ++ gens.filter fun g => groupKey g == k := by
  induction gens with
  | nil => intro acc _ k; simp
  | cons g rest ih =>
    intro acc h k
    rw [List.foldl_cons, ih (addToGroups acc g) (nodupKeys_addToGroups acc g h) k,
      listInGroups_addToGroups acc g k h, List.filter_cons]
    by_cases hg : groupKey g = k
    · simp [hg]
    · simp [hg]

lemma listInGroups_groupGenerations (gens : List Generation) (k : String) :
    listInGroups (groupGenerations gens) k = gens.filter fun g => groupKey g == k := by
  unfold groupGenerations
  have h := listInGroups_foldl gens [] (by simp) k
  simpa using h

lemma nodupKeys_foldl (gens : List Generation) :
    ∀ acc : List (String × List Generation), (acc.map Prod.fst).Nodup →
      ((gens.foldl addToGroups acc).map Prod.fst).Nodup := by
  induction gens with
  | nil => intro acc h; exact h
  | cons g rest ih =>
    intro acc h
    rw [List.foldl_cons]
    exact ih (addToGroups acc g) (nodupKeys_addToGroups acc g h)

lemma nodupKeys_groupGenerations (gens : List Generation) :
    ((groupGenerations gens).map Prod.fst).Nodup :=
  nodupKeys_foldl gens [] (by simp)

lemma listInGroups_of_mem (acc : List (String × List Generation))
    (p : String × List Generation) (h : (acc.map Prod.fst).Nodup) (hp : p ∈ acc) :
    listInGroups acc p.1 = p.2 := by
  induction acc with
  | nil => cases hp
  | cons q rest ih =>
    rw [List.map_cons] at h
    have hhead := (List.nodup_cons.mp h).1
    have htail := (List.nodup_cons.mp h).2
    rcases List.mem_cons.mp hp with he | hp2
    · subst he
      rw [listInGroups_cons, if_pos rfl,
        listInGroups_of_not_mem rest p.1 fun r hr he2 =>
          hhead (he2 ▸ List.mem_map_of_mem Prod.fst hr),
        List.append_nil]
    · have hne : q.1 ≠ p.1 := fun he2 =>
        hhead (he2.symm ▸ List.mem_map_of_mem Prod.fst hp2)
      rw [listInGroups_cons, if_neg hne, ih htail hp2]

lemma groupGenerations_bucket (gens : List Generation) (p : String × List Generation)
    (hp : p ∈ groupGenerations gens) :
    p.2 = gens.filter fun g => groupKey g == p.1 := by
  rw [← listInGroups_groupGenerations gens p.1]
  exact (listInGroups_of_mem _ p (nodupKeys_groupGenerations gens) hp).symm

lemma groupedArray_gifs (gens : List Generation) (go : GroupOut)
    (hg : go ∈ groupedArray gens) :
    go.gifs = sortGifs (gens.filter fun g => groupKey g == go.groupId) := by
  unfold groupedArray at hg
  rcases List.mem_filterMap.mp hg with ⟨p, hp, hout⟩
  unfold toGroupOut at hout
  cases hb : p.2 with
  | nil => rw [hb] at hout; exact absurd hout (by simp)
  | cons g rest =>
    rw [hb] at hout
    have hgo := Option.some.inj hout
    have hgifs : go.gifs = sortGifs p.2 := by rw [← hgo, hb]
    have hkey : go.groupId = p.1 := by rw [← hgo]
    rw [hgifs, hkey, ← groupGenerations_bucket gens p hp]

/-! ### Concrete fixtures (history) -/

/-- The literal-perspective record of the example, in group g. -/
def recA : Generation :=
  { id := "a", inputText := "txt", createdAt := 3, perspective := some "literal",
    generationGroupId := some "g", gifUrl := "uA", gifTitle := "tA",
    keywords := [], topic := none }

/-- The emotional-perspective record of the example, in group g. -/
def recB : Generation :=
  { id := "b", inputText := "txt", createdAt := 2, perspective := some "emotional",
    generationGroupId := some "g", gifUrl := "uB", gifTitle := "tB",
    keywords := [], topic := none }

/-- The legacy record of the example: no group id. -/
def recC : Generation :=
  { id := "c", inputText := "txt2", createdAt := 1, perspective := none,
    generationGroupId := none, gifUrl := "uC", gifTitle := "tC",
    keywords := [], topic := none }

/-! ### Claim theorems (history route) -/

/-- C9: grouping collects under each key exactly the records whose group key
(its groupId, or its own id for a legacy null-groupId record) equals that
key; every produced group is sorted by perspective rank (emotional 0,
literal 1, sarcastic 2, anything else 999 and hence last) and is a
permutation of its records; and the three-record example of the claim yields
group g as [b, a] in that order plus the singleton group keyed c. -/
theorem history_grouping_correct :
    (∀ (gens : List Generation) (k : String),
      listInGroups (groupGenerations gens) k = gens.filter fun g => groupKey g == k) ∧
    (∀ (gens : List Generation) (go : GroupOut), go ∈ groupedArray gens →
      List.Sorted rankLE go.gifs ∧
      go.gifs.Perm (gens.filter fun g => groupKey g == go.groupId)) ∧
    groupedArray [recA, recB, recC] =
      [{ groupId := "g", inputText := "txt", createdAt := 3, gifs := [recB, recA] },
       { groupId := "c", inputText := "txt2", createdAt := 1, gifs := [recC] }] := by
  refine ⟨listInGroups_groupGenerations, ?_, rfl⟩
  intro gens go hg
  rw [groupedArray_gifs gens go hg]
  exact ⟨List.sorted_insertionSort rankLE _, List.perm_insertionSort rankLE _⟩

/-- Witness for C9: the group keyed g of the concrete example is sorted by
rank and a permutation of the records keyed g. -/
theorem history_grouping_correct_witness :
    List.Sorted rankLE
      ({ groupId := "g", inputText := "txt", createdAt := 3,
         gifs := [recB, recA] } : GroupOut).gifs ∧
    ({ groupId := "g", inputText := "txt", createdAt := 3,
       gifs := [recB, recA] } : GroupOut).gifs.Perm
      ([recA, recB, recC].filter fun g => groupKey g == "g") :=
  history_grouping_correct.2.1 [recA, recB, recC]
    { groupId := "g", inputText := "txt", createdAt := 3, gifs := [recB, recA] }
    (by decide)

/-- A caller with identity but no profile row. -/
def henvNoProfile : HEnv :=
  { userId := some "u", user := none, page := 1, limit := 12, allGenerations := [recA] }

/-- C10: an authenticated caller with no profile row receives the bare
`\x7b generations: [] \x7d` body with no pagination object at all, while every
caller with a profile row receives a body that does carry a pagination
object. -/
theorem history_missing_profile_response (env : HEnv) (uid : String)
    (hu : env.userId = some uid) (hnouser : env.user = none) :
    GET env = .ok { generations := [], pagination := none } ∧
    (∀ env2 : HEnv, env2.userId.isSome → env2.user.isSome →
      ∃ b, GET env2 = .ok b ∧ b.pagination.isSome) := by
  constructor
  · unfold GET; rw [hu, hnouser]
  · intro env2 h1 h2
    obtain ⟨u2, hu2⟩ := Option.isSome_iff_exists.mp h1
    obtain ⟨p2, hp2⟩ := Option.isSome_iff_exists.mp h2
    have hget : GET env2 = .ok
        { generations :=
            ((groupedArray env2.allGenerations).drop ((env2.page - 1) * env2.limit)).take env2.limit,
          pagination := some
            { total := (groupedArray env2.allGenerations).length,
              page := env2.page, limit := env2.limit,
              totalPages := ((groupedArray env2.allGenerations).length + env2.limit - 1) / env2.limit } } := by
      unfold GET; rw [hu2, hp2]
    exact ⟨_, hget, rfl⟩

/-- Witness for C10 at the concrete no-profile caller. -/
theorem history_missing_profile_response_witness :
    GET henvNoProfile = .ok { generations := [], pagination := none } ∧
    (∀ env2 : HEnv, env2.userId.isSome → env2.user.isSome →
      ∃ b, GET env2 = .ok b ∧ b.pagination.isSome) :=
  history_missing_profile_response henvNoProfile "u" rfl rfl

end History

end ReactiGIF
